import Mathlib

/-!
Shallow embedding of the otpilot-tool host-side firmware-update client
(`src/tools/otpilot-tool`): the chunked firmware-update workflow of
`main.rs` (`Device::fw_update`, `Device::ro_update`, `Device::rw_update`,
`Device::firmware_update_prepare`, `Device::firmware_write_chunk`,
`Device::read_mailbox`, `Device::build_info`) and the wire framing layer
(`wire/firmware.rs`, `wire/manticore.rs`).

Bytes are modelled as `Nat` (each < 256 where it matters), buffers as
`List Nat`, machine integers as `Nat` with explicit `% 2^w` where the
source performs a narrowing cast, and fail-fast `panic!`/`expect` calls
as `Except` errors.  The device on the other end of the mailbox is
modelled as an oracle giving the decoded response to each request.
-/

namespace Otpilot

/-- Segment/location identifiers of the four updatable slots
(`spiutils::protocol::firmware::SegmentAndLocation`).  The `Invalid`
constructor models any other identifier value the external codec can
decode, which the source handles with a catch-all match arm. -/
inductive SegmentAndLocation where
  | RoA
  | RoB
  | RwA
  | RwB
  | Invalid (code : Nat)
deriving DecidableEq

/-- Description of one slot: its identifier and its capacity in bytes
(`spiutils::driver::firmware::SegmentInfo`, `size` is a `u32`). -/
structure SegmentInfo where
  identifier : SegmentAndLocation
  size : Nat
deriving DecidableEq

/-- Result code echoed in an update-prepare response; the source only
distinguishes `Success` from everything else. -/
inductive UpdatePrepareResult where
  | Success
  | Other (code : Nat)
deriving DecidableEq

/-- Result code echoed in a chunk-write response. -/
inductive WriteChunkResult where
  | Success
  | Other (code : Nat)
deriving DecidableEq

/-- Decoded `UpdatePrepareResponse` (`max_chunk_length` is a `u16`). -/
structure UpdatePrepareResponse where
  segment_and_location : SegmentAndLocation
  result : UpdatePrepareResult
  max_chunk_length : Nat
deriving DecidableEq

/-- Decoded `WriteChunkResponse` (`offset` is a `u32`). -/
structure WriteChunkResponse where
  segment_and_location : SegmentAndLocation
  offset : Nat
  result : WriteChunkResult
deriving DecidableEq

/-- Oracle for the device at the far end of the mailbox: the decoded
response it produces for each request the tool can send.  `inactive_ro`
and `inactive_rw` are the `ro`/`rw` fields of its
`InactiveSegmentsInfoResponse`. -/
structure DeviceOracle where
  inactive_ro : SegmentInfo
  inactive_rw : SegmentInfo
  prepareResp : SegmentAndLocation → UpdatePrepareResponse
  chunkResp : SegmentAndLocation → Nat → List Nat → WriteChunkResponse

/-- Fail-fast conditions of the update workflow, one per `panic!` /
`expect` site in `Device::fw_update` and its callees. -/
inductive UpdateError where
  | fileOpenFailed (name : String)
  | fileTooLarge (identifier : SegmentAndLocation) (haveLen : Nat) (want : Nat)
  | invalidChunkLen
  | prepareSalMismatch (got : SegmentAndLocation)
  | prepareResultInvalid (got : UpdatePrepareResult)
  | chunkSalMismatch (got : SegmentAndLocation)
  | chunkOffsetMismatch (got : Nat)
  | chunkResultInvalid (got : WriteChunkResult)
  | unexpectedSegment (got : SegmentAndLocation)
deriving DecidableEq

/-- Observable actions of the update workflow, in program order:
reading the candidate image file into memory, sending an
update-prepare request, sending a chunk-write request (recorded with
its offset and length), and sending the inactive-segments-info query. -/
inductive Event where
  | inactiveQuerySent
  | fileRead (name : String) (len : Nat)
  | prepareSent (sal : SegmentAndLocation)
  | chunkSent (sal : SegmentAndLocation) (offset : Nat) (len : Nat)
deriving DecidableEq

def Event.isChunkSent : Event → Bool
  | .chunkSent _ _ _ => true
  | _ => false

def Event.isPrepareSent : Event → Bool
  | .prepareSent _ => true
  | _ => false

def Event.isFileRead : Event → Bool
  | .fileRead _ _ => true
  | _ => false

/-- Size of the fixed outbound frame buffer (`SPI_MAX_WRITE`). -/
def SPI_MAX_WRITE : Nat := 512

/-- Size of the fixed inbound read buffer (`SPI_MAX_READ`). -/
def SPI_MAX_READ : Nat := 2048

/-- Fixed byte offset of the build-info record inside a raw firmware
image (`FIRMWARE_INFO_OFFSET`). -/
def FIRMWARE_INFO_OFFSET : Nat := 860

/-- Model of `Device::read_mailbox`: a fresh zero-initialized
`SPI_MAX_READ` buffer is filled by `spi.read` with however many bytes
the transport delivers (`device_bytes`, truncated to the buffer size);
the whole buffer — not the prefix slice the transport reports — is
returned for decoding. -/
def read_mailbox (device_bytes : List Nat) : List Nat :=
  device_bytes.take SPI_MAX_READ ++
    List.replicate (SPI_MAX_READ - min device_bytes.length SPI_MAX_READ) 0

/-- Model of `Device::firmware_update_prepare`: send the request, then
validate the echoed segment identifier and result code of the decoded
response; on success return the negotiated `max_chunk_length`. -/
def firmware_update_prepare (dev : DeviceOracle)
    (segment_and_location : SegmentAndLocation) : Except UpdateError Nat :=
  let resp := dev.prepareResp segment_and_location
  if resp.segment_and_location ≠ segment_and_location then
    .error (.prepareSalMismatch resp.segment_and_location)
  else if resp.result ≠ .Success then
    .error (.prepareResultInvalid resp.result)
  else
    .ok resp.max_chunk_length

/-- Model of `Device::firmware_write_chunk`: send one chunk, then
validate the echoed segment identifier, offset and result code of the
decoded response, in that order. -/
def firmware_write_chunk (dev : DeviceOracle)
    (segment_and_location : SegmentAndLocation) (offset : Nat)
    (data : List Nat) : Except UpdateError Unit :=
  let resp := dev.chunkResp segment_and_location offset data
  if resp.segment_and_location ≠ segment_and_location then
    .error (.chunkSalMismatch resp.segment_and_location)
  else if resp.offset ≠ offset then
    .error (.chunkOffsetMismatch resp.offset)
  else if resp.result ≠ .Success then
    .error (.chunkResultInvalid resp.result)
  else
    .ok ()

/-- One chunk-write request as sent on the wire: absolute offset and
the image slice `data[pos..pos+chunk_len]`. -/
structure ChunkReq where
  offset : Nat
  data : List Nat
deriving DecidableEq

/-- The chunk loop of `Device::fw_update` (`while pos < data_len`),
started at `pos`: returns the chunk-write requests issued, in order,
and the loop's outcome.  `chunk_len` is `min(max_chunk_length,
data_len - pos) as u16`, hence the `% 65536`. -/
def chunkLoop (dev : DeviceOracle) (sal : SegmentAndLocation)
    (data : List Nat) (max_chunk_length : Nat) (pos : Nat) :
    List ChunkReq × Except UpdateError Unit :=
  if h : pos < data.length then
    let chunk_len := (min max_chunk_length (data.length - pos)) % 65536
    if hc : chunk_len = 0 then
      ([], .error .invalidChunkLen)
    else
      let chunk := (data.drop pos).take chunk_len
      match firmware_write_chunk dev sal pos chunk with
      | .error e => ([⟨pos, chunk⟩], .error e)
      | .ok _ =>
        let rest := chunkLoop dev sal data max_chunk_length (pos + chunk_len)
        (⟨pos, chunk⟩ :: rest.1, rest.2)
  else
    ([], .ok ())
termination_by data.length - pos
decreasing_by omega

/-- File system oracle: the contents each path name resolves to, or
`none` when opening/reading the file fails. -/
def FileSystem := String → Option (List Nat)

/-- Model of `Device::fw_update`: read the candidate image fully into
memory, reject it if it exceeds the slot capacity, run the
update-prepare exchange, then stream the image through the chunk loop.
Returns the trace of observable actions and the outcome. -/
def fw_update (dev : DeviceOracle) (files : FileSystem)
    (segment : SegmentInfo) (file_name : String) :
    List Event × Except UpdateError Unit :=
  match files file_name with
  | none => ([], .error (.fileOpenFailed file_name))
  | some file_buf =>
    if file_buf.length > segment.size then
      ([.fileRead file_name file_buf.length],
       .error (.fileTooLarge segment.identifier file_buf.length segment.size))
    else
      match firmware_update_prepare dev segment.identifier with
      | .error e =>
        ([.fileRead file_name file_buf.length, .prepareSent segment.identifier],
         .error e)
      | .ok max_chunk_length =>
        let r := chunkLoop dev segment.identifier file_buf max_chunk_length 0
        (.fileRead file_name file_buf.length :: .prepareSent segment.identifier ::
          r.1.map (fun c => .chunkSent segment.identifier c.offset c.data.length),
         r.2)

/-- Model of `Device::firmware_get_inactive_ro`: issue the
inactive-segments-info query and keep the `ro` field. -/
def firmware_get_inactive_ro (dev : DeviceOracle) : SegmentInfo :=
  dev.inactive_ro

/-- Model of `Device::firmware_get_inactive_rw`. -/
def firmware_get_inactive_rw (dev : DeviceOracle) : SegmentInfo :=
  dev.inactive_rw

/-- Model of `Device::ro_update`: discover the inactive RO slot, pick
the candidate file for it (A-path for `RoA`, B-path for `RoB`, fatal
otherwise) and run `fw_update` on it. -/
def ro_update (dev : DeviceOracle) (files : FileSystem)
    (a_file b_file : String) : List Event × Except UpdateError Unit :=
  let inactive := firmware_get_inactive_ro dev
  match inactive.identifier with
  | .RoA =>
    let r := fw_update dev files inactive a_file
    (.inactiveQuerySent :: r.1, r.2)
  | .RoB =>
    let r := fw_update dev files inactive b_file
    (.inactiveQuerySent :: r.1, r.2)
  | sal => ([.inactiveQuerySent], .error (.unexpectedSegment sal))

/-- Model of `Device::rw_update`. -/
def rw_update (dev : DeviceOracle) (files : FileSystem)
    (a_file b_file : String) : List Event × Except UpdateError Unit :=
  let inactive := firmware_get_inactive_rw dev
  match inactive.identifier with
  | .RwA =>
    let r := fw_update dev files inactive a_file
    (.inactiveQuerySent :: r.1, r.2)
  | .RwB =>
    let r := fw_update dev files inactive b_file
    (.inactiveQuerySent :: r.1, r.2)
  | sal => ([.inactiveQuerySent], .error (.unexpectedSegment sal))

/-- Failure modes of `Device::build_info`. -/
inductive BuildInfoError where
  | sliceOutOfRange
  | deserializeFailed
deriving DecidableEq

/-- Model of `Device::build_info`: slice the raw image at the fixed
offset (`&mut buf[FIRMWARE_INFO_OFFSET..]` aborts when the image is
shorter than the offset) and hand the tail to the external
`BuildInfo::from_wire` codec, modelled as an arbitrary parameter. -/
def build_info {α : Type} (codec : List Nat → Option α) (buf : List Nat) :
    Except BuildInfoError α :=
  if FIRMWARE_INFO_OFFSET ≤ buf.length then
    match codec (buf.drop FIRMWARE_INFO_OFFSET) with
    | some b => .ok b
    | none => .error .deserializeFailed
  else
    .error .sliceOutOfRange

/-- Test for a contiguous, monotonically increasing, zero-gap chain of
(offset, length) pairs covering exactly `[start, stop)`: each pair
starts where the previous one ended, has nonzero length, and the chain
ends exactly at `stop`. -/
def contiguousB : Nat → List (Nat × Nat) → Nat → Bool
  | start, [], stop => start == stop
  | start, (o, l) :: rest, stop =>
    o == start && l != 0 && contiguousB (start + l) rest stop

/-- Envelope content types used by the tool
(`spiutils::protocol::payload::ContentType`): the query family
(Manticore), the firmware-control family, and the device-error tag. -/
inductive ContentType where
  | Manticore
  | Firmware
  | Error
deriving DecidableEq

/-- Modelled from the spec: the byte encoding of the content-type tag
is owned by the external spiutils codec (absent from `src/`); the model
fixes one injective assignment. -/
def ContentType.toByte : ContentType → Nat
  | .Manticore => 1
  | .Firmware => 2
  | .Error => 3

/-- Modelled from the spec: inverse of `ContentType.toByte`; any other
tag byte fails to decode. -/
def ContentType.fromByte (b : Nat) : Option ContentType :=
  if b = 1 then some .Manticore
  else if b = 2 then some .Firmware
  else if b = 3 then some .Error
  else none

/-- Envelope header (`spiutils::protocol::payload::Header`):
content-type tag, 16-bit content length, 16-bit checksum. -/
structure PayloadHeader where
  content : ContentType
  content_len : Nat
  checksum : Nat
deriving DecidableEq

/-- Serialized size of the envelope header
(`spiutils::protocol::payload::HEADER_LEN`): one tag byte plus two
16-bit little-endian fields. -/
def HEADER_LEN : Nat := 5

/-- Modelled from the spec: wire form of the envelope header (the
bit-level codec is external); one tag byte, then `content_len` and
`checksum` as 16-bit little-endian fields. -/
def headerToWire (h : PayloadHeader) : List Nat :=
  [h.content.toByte, h.content_len % 256, h.content_len / 256 % 256,
   h.checksum % 256, h.checksum / 256 % 256]

/-- Modelled from the spec: parse the fixed-size envelope header off
the front of a frame, returning it and the remaining bytes. -/
def headerFromWire : List Nat → Option (PayloadHeader × List Nat)
  | t :: l0 :: l1 :: c0 :: c1 :: rest =>
    match ContentType.fromByte t with
    | some ct => some (⟨ct, l0 + 256 * l1, c0 + 256 * c1⟩, rest)
    | none => none
  | _ => none

/-- Modelled from the spec: the external
`spiutils::protocol::payload::compute_checksum` primitive — a 16-bit
checksum over the header with its checksum field treated as zero,
concatenated with the first `content_len` payload bytes. -/
def compute_checksum (h : PayloadHeader) (data : List Nat) : Nat :=
  ((headerToWire { h with checksum := 0 }).sum +
    (data.take h.content_len).sum) % 65536

/-- Envelope encoding shared by both `serialize` functions: build the
header with `content_len = payload.length` and a zero checksum,
compute the checksum over header plus payload, and emit
header-then-payload. -/
def encode_envelope (content_type : ContentType) (payload : List Nat) :
    List Nat :=
  let base : PayloadHeader := ⟨content_type, payload.length, 0⟩
  headerToWire { base with checksum := compute_checksum base payload } ++
    payload

/-- Protocol faults raised while decoding an inbound frame, one per
`panic!`/`expect` site shared by `wire/firmware.rs` and
`wire/manticore.rs`. -/
inductive ProtocolError where
  | headerDeserializeFailed
  | checksumMismatch (expected actual : Nat)
  | deviceReportedError
  | unexpectedContentType (got : ContentType)
  | truncationOutOfRange
  | subHeaderDeserializeFailed
  | unexpectedMessageType (got : Nat)
  | unexpectedDirection
deriving DecidableEq

/-- Envelope decoding shared by both `deserialize` functions: parse the
header, recompute the checksum and compare it with the header field, a
device-reported error content type is a hard fault, and the remaining
bytes are truncated to exactly `content_len` (the out-of-range slice
aborts). -/
def decode_envelope (input : List Nat) :
    Except ProtocolError (ContentType × List Nat) :=
  match headerFromWire input with
  | none => .error .headerDeserializeFailed
  | some (spi_header, data) =>
    let expected := compute_checksum spi_header data
    if spi_header.checksum ≠ expected then
      .error (.checksumMismatch expected spi_header.checksum)
    else if spi_header.content = .Error then
      .error .deviceReportedError
    else if data.length < spi_header.content_len then
      .error .truncationOutOfRange
    else
      .ok (spi_header.content, data.take spi_header.content_len)

namespace WireFirmware

/-- Model of `wire::firmware::serialize`: wrap the one-byte
firmware-control sub-header (the message-type tag, an 8-bit command
code) and the message payload in an envelope with content type
`Firmware`.  Fails (`None`) when the payload does not fit the
fixed 512-byte outbound buffer after the envelope header. -/
def serialize (msg_type : Nat) (msg_bytes : List Nat) :
    Option (List Nat) :=
  let payload := msg_type % 256 :: msg_bytes
  if payload.length ≤ SPI_MAX_WRITE - HEADER_LEN then
    let base : PayloadHeader := ⟨.Firmware, payload.length, 0⟩
    some (headerToWire { base with
            checksum := compute_checksum base payload } ++ payload)
  else
    none

/-- Model of `wire::firmware::deserialize`: parse the envelope header,
recompute and compare the checksum, fail hard on a device-reported
error envelope or an unexpected content type, truncate to
`content_len` (aborting on an out-of-range slice), check the
firmware-control message-type tag, and return the message bytes handed
to the external message codec. -/
def deserialize (msg_type : Nat) (input : List Nat) :
    Except ProtocolError (List Nat) :=
  match headerFromWire input with
  | none => .error .headerDeserializeFailed
  | some (spi_header, data) =>
    let expected := compute_checksum spi_header data
    if spi_header.checksum ≠ expected then
      .error (.checksumMismatch expected spi_header.checksum)
    else if spi_header.content = .Error then
      .error .deviceReportedError
    else if spi_header.content ≠ .Firmware then
      .error (.unexpectedContentType spi_header.content)
    else if data.length < spi_header.content_len then
      .error .truncationOutOfRange
    else
      match data.take spi_header.content_len with
      | [] => .error .subHeaderDeserializeFailed
      | c :: rest =>
        if c ≠ msg_type % 256 then .error (.unexpectedMessageType c)
        else .ok rest

end WireFirmware

namespace WireManticore

/-- Model of `wire::manticore::serialize`: wrap the query-family
sub-header — a direction flag (`is_request = true`, modelled as byte
`1`) and an 8-bit command code — and the message payload in an
envelope with content type `Manticore`. -/
def serialize (command : Nat) (msg_bytes : List Nat) :
    Option (List Nat) :=
  let payload := 1 :: command % 256 :: msg_bytes
  if payload.length ≤ SPI_MAX_WRITE - HEADER_LEN then
    let base : PayloadHeader := ⟨.Manticore, payload.length, 0⟩
    some (headerToWire { base with
            checksum := compute_checksum base payload } ++ payload)
  else
    none

/-- Model of `wire::manticore::deserialize`: like the firmware-family
decoder but for content type `Manticore`; after the envelope it parses
the query sub-header, checks the command code, and requires the
direction flag to be "response" (byte `0`). -/
def deserialize (command : Nat) (input : List Nat) :
    Except ProtocolError (List Nat) :=
  match headerFromWire input with
  | none => .error .headerDeserializeFailed
  | some (spi_header, data) =>
    let expected := compute_checksum spi_header data
    if spi_header.checksum ≠ expected then
      .error (.checksumMismatch expected spi_header.checksum)
    else if spi_header.content = .Error then
      .error .deviceReportedError
    else if spi_header.content ≠ .Manticore then
      .error (.unexpectedContentType spi_header.content)
    else if data.length < spi_header.content_len then
      .error .truncationOutOfRange
    else
      match data.take spi_header.content_len with
      | dir :: c :: rest =>
        if c ≠ command % 256 then .error (.unexpectedMessageType c)
        else if dir ≠ 0 then .error .unexpectedDirection
        else .ok rest
      | _ => .error .subHeaderDeserializeFailed

end WireManticore

/-- Device oracle that echoes every request correctly, reports success
everywhere, negotiates max chunk length `m`, and reports the B slots
(capacity 65536) as inactive. -/
def honestDev (m : Nat) : DeviceOracle where
  inactive_ro := ⟨.RoB, 65536⟩
  inactive_rw := ⟨.RwB, 65536⟩
  prepareResp := fun s => ⟨s, .Success, m⟩
  chunkResp := fun s o _ => ⟨s, o, .Success⟩

/-- Device oracle whose update-prepare response echoes a wrong segment
identifier. -/
def badPrepareDev : DeviceOracle where
  inactive_ro := ⟨.RoA, 4⟩
  inactive_rw := ⟨.RwA, 4⟩
  prepareResp := fun _ => ⟨.Invalid 0, .Success, 16⟩
  chunkResp := fun s o _ => ⟨s, o, .Success⟩

/-- Small concrete file system used by witnesses. -/
def testFiles : FileSystem := fun n =>
  if n = "a" then some [10, 11, 12]
  else if n = "b" then some [7]
  else if n = "empty" then some []
  else none

/-- Concrete file system for the A/B selection scenario: a 40000-byte
A-path image and a 50000-byte B-path image. -/
def scenarioFiles : FileSystem := fun n =>
  if n = "a" then some (List.replicate 40000 0)
  else if n = "b" then some (List.replicate 50000 0)
  else none

theorem chunkLoop_stop (dev : DeviceOracle) (sal : SegmentAndLocation)
    (data : List Nat) (C pos : Nat) (h : ¬ pos < data.length) :
    chunkLoop dev sal data C pos = ([], .ok ()) := by
  rw [chunkLoop]
  simp [h]

theorem chunkLoop_zero (dev : DeviceOracle) (sal : SegmentAndLocation)
    (data : List Nat) (C pos : Nat) (h : pos < data.length)
    (hc : (min C (data.length - pos)) % 65536 = 0) :
    chunkLoop dev sal data C pos = ([], .error .invalidChunkLen) := by
  rw [chunkLoop]
  simp only [h, dif_pos]
  rw [dif_pos hc]

theorem chunkLoop_error (dev : DeviceOracle) (sal : SegmentAndLocation)
    (data : List Nat) (C pos : Nat) (e : UpdateError)
    (h : pos < data.length)
    (hc : ¬ (min C (data.length - pos)) % 65536 = 0)
    (hw : firmware_write_chunk dev sal pos
        ((data.drop pos).take ((min C (data.length - pos)) % 65536)) =
      .error e) :
    chunkLoop dev sal data C pos =
      ([⟨pos, (data.drop pos).take ((min C (data.length - pos)) % 65536)⟩],
       .error e) := by
  rw [chunkLoop]
  simp only [h, dif_pos]
  rw [dif_neg hc, hw]

theorem chunkLoop_ok_step (dev : DeviceOracle) (sal : SegmentAndLocation)
    (data : List Nat) (C pos : Nat)
    (h : pos < data.length)
    (hc : ¬ (min C (data.length - pos)) % 65536 = 0)
    (hw : firmware_write_chunk dev sal pos
        ((data.drop pos).take ((min C (data.length - pos)) % 65536)) =
      .ok ()) :
    chunkLoop dev sal data C pos =
      (⟨pos, (data.drop pos).take ((min C (data.length - pos)) % 65536)⟩ ::
         (chunkLoop dev sal data C
           (pos + (min C (data.length - pos)) % 65536)).1,
       (chunkLoop dev sal data C
         (pos + (min C (data.length - pos)) % 65536)).2) := by
  rw [chunkLoop]
  simp only [h, dif_pos]
  rw [dif_neg hc, hw]

theorem firmware_write_chunk_honest (dev : DeviceOracle)
    (honest : ∀ s o d, dev.chunkResp s o d = ⟨s, o, .Success⟩)
    (sal : SegmentAndLocation) (offset : Nat) (data : List Nat) :
    firmware_write_chunk dev sal offset data = .ok () := by
  rw [firmware_write_chunk, honest]
  simp


theorem ceil_div_step (r C : Nat) (hC : 0 < C) (hr : 0 < r) :
    (r - min C r + C - 1) / C + 1 = (r + C - 1) / C := by
  rcases le_or_lt r C with h | h
  · rw [min_eq_right h, Nat.sub_self]
    rw [Nat.div_eq_of_lt (by omega)]
    have h2 : r + C - 1 = (r - 1) + C := by omega
    rw [h2, Nat.add_div_right _ hC, Nat.div_eq_of_lt (by omega)]
  · rw [min_eq_left (le_of_lt h)]
    have h2 : r + C - 1 = (r - C + C - 1) + C := by omega
    rw [h2, Nat.add_div_right _ hC]

theorem chunkLoop_honest_length (dev : DeviceOracle) (sal : SegmentAndLocation)
    (data : List Nat) (C : Nat)
    (honest : ∀ s o d, dev.chunkResp s o d = ⟨s, o, .Success⟩)
    (hC : 0 < C) (hC16 : C < 65536) :
    ∀ pos, pos ≤ data.length →
      (chunkLoop dev sal data C pos).1.length = (data.length - pos + C - 1) / C := by
  intro pos
  induction pos using chunkLoop.induct dev sal data C with
  | case1 x hx cl hcl =>
    exfalso
    have hcl2 : (min C (data.length - x)) % 65536 = 0 := hcl
    omega
  | case2 x hx cl hcl ch e hw =>
    exfalso
    rw [firmware_write_chunk_honest dev honest] at hw
    exact Except.noConfusion hw
  | case3 x hx cl hcl ch u hw ih =>
    intro hle
    have hclv : cl = (min C (data.length - x)) % 65536 := rfl
    have hcl2 : ¬ (min C (data.length - x)) % 65536 = 0 := hcl
    have hw2 : firmware_write_chunk dev sal x
        ((data.drop x).take ((min C (data.length - x)) % 65536)) = .ok () := by
      cases u
      exact hw
    rw [chunkLoop_ok_step dev sal data C x hx hcl2 hw2]
    have hmod : (min C (data.length - x)) % 65536 = min C (data.length - x) :=
      Nat.mod_eq_of_lt (by omega)
    have hle2 : x + (min C (data.length - x)) % 65536 ≤ data.length := by omega
    have ihl := ih hle2
    rw [hclv, hmod] at ihl
    simp only [List.length_cons]
    rw [hmod, ihl]
    have hsub : data.length - (x + min C (data.length - x)) =
        (data.length - x) - min C (data.length - x) := by omega
    rw [hsub]
    exact ceil_div_step (data.length - x) C hC (by omega)
  | case4 x hx =>
    intro hle
    rw [chunkLoop_stop dev sal data C x hx]
    have h0 : data.length - x = 0 := by omega
    rw [h0]
    simp [Nat.div_eq_of_lt (show C - 1 < C by omega)]


theorem chunkLoop_honest_get (dev : DeviceOracle) (sal : SegmentAndLocation)
    (data : List Nat) (C : Nat)
    (honest : ∀ s o d, dev.chunkResp s o d = ⟨s, o, .Success⟩)
    (hC : 0 < C) (hC16 : C < 65536) :
    ∀ pos i c, ((chunkLoop dev sal data C pos).1)[i]? = some c →
      c.offset = pos + i * C ∧ c.offset < data.length ∧
      c.data = (data.drop c.offset).take (min C (data.length - c.offset)) := by
  intro pos
  induction pos using chunkLoop.induct dev sal data C with
  | case1 x hx cl hcl =>
    exfalso
    have hcl2 : (min C (data.length - x)) % 65536 = 0 := hcl
    omega
  | case2 x hx cl hcl ch e hw =>
    exfalso
    rw [firmware_write_chunk_honest dev honest] at hw
    exact Except.noConfusion hw
  | case3 x hx cl hcl ch u hw ih =>
    intro i c hget
    have hclv : cl = (min C (data.length - x)) % 65536 := rfl
    have hcl2 : ¬ (min C (data.length - x)) % 65536 = 0 := hcl
    have hw2 : firmware_write_chunk dev sal x
        ((data.drop x).take ((min C (data.length - x)) % 65536)) = .ok () := by
      cases u
      exact hw
    have hmod : (min C (data.length - x)) % 65536 = min C (data.length - x) :=
      Nat.mod_eq_of_lt (by omega)
    rw [chunkLoop_ok_step dev sal data C x hx hcl2 hw2] at hget
    cases i with
    | zero =>
      simp only [List.getElem?_cons_zero, Option.some.injEq] at hget
      subst hget
      refine ⟨by simp, hx, ?_⟩
      simp only [hmod]
    | succ i =>
      simp only [List.getElem?_cons_succ] at hget
      have hlt : x + (min C (data.length - x)) % 65536 < data.length := by
        by_contra hge
        rw [chunkLoop_stop dev sal data C _ hge] at hget
        simp at hget
      have hrec := ih i c (by rw [hclv, hmod]; rw [hmod] at hget; exact hget)
      have hclC : (min C (data.length - x)) % 65536 = C := by omega
      rw [hclv, hclC] at hrec
      refine ⟨?_, hrec.2.1, hrec.2.2⟩
      rw [hrec.1]
      ring
  | case4 x hx =>
    intro i c hget
    rw [chunkLoop_stop dev sal data C x hx] at hget
    simp at hget

theorem chunkLoop_honest_contig (dev : DeviceOracle) (sal : SegmentAndLocation)
    (data : List Nat) (C : Nat)
    (honest : ∀ s o d, dev.chunkResp s o d = ⟨s, o, .Success⟩)
    (hC : 0 < C) (hC16 : C < 65536) :
    ∀ pos, pos ≤ data.length →
      contiguousB pos ((chunkLoop dev sal data C pos).1.map
        (fun c => (c.offset, c.data.length))) data.length = true := by
  intro pos
  induction pos using chunkLoop.induct dev sal data C with
  | case1 x hx cl hcl =>
    exfalso
    have hcl2 : (min C (data.length - x)) % 65536 = 0 := hcl
    omega
  | case2 x hx cl hcl ch e hw =>
    exfalso
    rw [firmware_write_chunk_honest dev honest] at hw
    exact Except.noConfusion hw
  | case3 x hx cl hcl ch u hw ih =>
    intro hle
    have hclv : cl = (min C (data.length - x)) % 65536 := rfl
    have hcl2 : ¬ (min C (data.length - x)) % 65536 = 0 := hcl
    have hw2 : firmware_write_chunk dev sal x
        ((data.drop x).take ((min C (data.length - x)) % 65536)) = .ok () := by
      cases u
      exact hw
    have hmod : (min C (data.length - x)) % 65536 = min C (data.length - x) :=
      Nat.mod_eq_of_lt (by omega)
    rw [chunkLoop_ok_step dev sal data C x hx hcl2 hw2]
    simp only [List.map_cons, contiguousB]
    have hlen : ((data.drop x).take ((min C (data.length - x)) % 65536)).length =
        min C (data.length - x) := by
      simp [List.length_take, List.length_drop]
      omega
    rw [hlen]
    have hih := ih (by rw [hclv]; omega)
    rw [hclv, hmod] at hih
    simp only [hmod]
    rw [hih]
    simp
    omega
  | case4 x hx =>
    intro hle
    rw [chunkLoop_stop dev sal data C x hx]
    simp only [List.map_nil, contiguousB]
    simp
    omega


theorem chunkLoop_honest_ok (dev : DeviceOracle) (sal : SegmentAndLocation)
    (data : List Nat) (C : Nat)
    (honest : ∀ s o d, dev.chunkResp s o d = ⟨s, o, .Success⟩)
    (hC : 0 < C) (hC16 : C < 65536) :
    ∀ pos, (chunkLoop dev sal data C pos).2 = .ok () := by
  intro pos
  induction pos using chunkLoop.induct dev sal data C with
  | case1 x hx cl hcl =>
    exfalso
    have hcl2 : (min C (data.length - x)) % 65536 = 0 := hcl
    omega
  | case2 x hx cl hcl ch e hw =>
    exfalso
    rw [firmware_write_chunk_honest dev honest] at hw
    exact Except.noConfusion hw
  | case3 x hx cl hcl ch u hw ih =>
    have hcl2 : ¬ (min C (data.length - x)) % 65536 = 0 := hcl
    have hw2 : firmware_write_chunk dev sal x
        ((data.drop x).take ((min C (data.length - x)) % 65536)) = .ok () := by
      cases u
      exact hw
    rw [chunkLoop_ok_step dev sal data C x hx hcl2 hw2]
    exact ih
  | case4 x hx =>
    rw [chunkLoop_stop dev sal data C x hx]

theorem chunkLoop_nonlast_valid (dev : DeviceOracle) (sal : SegmentAndLocation)
    (data : List Nat) (C : Nat) :
    ∀ pos i c, ((chunkLoop dev sal data C pos).1)[i]? = some c →
      i + 1 < (chunkLoop dev sal data C pos).1.length →
      firmware_write_chunk dev sal c.offset c.data = .ok () := by
  intro pos
  induction pos using chunkLoop.induct dev sal data C with
  | case1 x hx cl hcl =>
    intro i c hget hlt
    have hcl2 : (min C (data.length - x)) % 65536 = 0 := hcl
    rw [chunkLoop_zero dev sal data C x hx hcl2] at hget
    simp at hget
  | case2 x hx cl hcl ch e hw =>
    intro i c hget hlt
    have hcl2 : ¬ (min C (data.length - x)) % 65536 = 0 := hcl
    have hw2 : firmware_write_chunk dev sal x
        ((data.drop x).take ((min C (data.length - x)) % 65536)) = .error e := hw
    rw [chunkLoop_error dev sal data C x e hx hcl2 hw2] at hlt
    simp at hlt
  | case3 x hx cl hcl ch u hw ih =>
    intro i c hget hlt
    have hcl2 : ¬ (min C (data.length - x)) % 65536 = 0 := hcl
    have hw2 : firmware_write_chunk dev sal x
        ((data.drop x).take ((min C (data.length - x)) % 65536)) = .ok () := by
      cases u
      exact hw
    have hclv : cl = (min C (data.length - x)) % 65536 := rfl
    simp only [hclv] at ih
    rw [chunkLoop_ok_step dev sal data C x hx hcl2 hw2] at hget hlt
    cases i with
    | zero =>
      simp only [List.getElem?_cons_zero, Option.some.injEq] at hget
      subst hget
      exact hw2
    | succ i =>
      simp only [List.getElem?_cons_succ] at hget
      simp only [List.length_cons] at hlt
      exact ih i c hget (by omega)
  | case4 x hx =>
    intro i c hget hlt
    rw [chunkLoop_stop dev sal data C x hx] at hget
    simp at hget

theorem chunkLoop_error_of_elem (dev : DeviceOracle) (sal : SegmentAndLocation)
    (data : List Nat) (C : Nat) :
    ∀ pos, ∀ (i : Nat) (c : ChunkReq) (e : UpdateError),
      ((chunkLoop dev sal data C pos).1)[i]? = some c →
      firmware_write_chunk dev sal c.offset c.data = .error e →
      (chunkLoop dev sal data C pos).2 = .error e := by
  intro pos
  induction pos using chunkLoop.induct dev sal data C with
  | case1 x hx cl hcl =>
    intro i c e hget hwc
    have hcl2 : (min C (data.length - x)) % 65536 = 0 := hcl
    rw [chunkLoop_zero dev sal data C x hx hcl2] at hget
    simp at hget
  | case2 x hx cl hcl ch e hw =>
    intro i c e2 hget hwc
    have hcl2 : ¬ (min C (data.length - x)) % 65536 = 0 := hcl
    have hw2 : firmware_write_chunk dev sal x
        ((data.drop x).take ((min C (data.length - x)) % 65536)) = .error e := hw
    rw [chunkLoop_error dev sal data C x e hx hcl2 hw2] at hget ⊢
    cases i with
    | zero =>
      simp only [List.getElem?_cons_zero, Option.some.injEq] at hget
      subst hget
      rw [hw2] at hwc
      simpa using hwc
    | succ i =>
      simp at hget
  | case3 x hx cl hcl ch u hw ih =>
    intro i c e hget hwc
    have hcl2 : ¬ (min C (data.length - x)) % 65536 = 0 := hcl
    have hw2 : firmware_write_chunk dev sal x
        ((data.drop x).take ((min C (data.length - x)) % 65536)) = .ok () := by
      cases u
      exact hw
    rw [chunkLoop_ok_step dev sal data C x hx hcl2 hw2] at hget ⊢
    cases i with
    | zero =>
      simp only [List.getElem?_cons_zero, Option.some.injEq] at hget
      subst hget
      rw [hw2] at hwc
      exact Except.noConfusion hwc
    | succ i =>
      simp only [List.getElem?_cons_succ] at hget
      exact ih i c e hget hwc
  | case4 x hx =>
    intro i c e hget hwc
    rw [chunkLoop_stop dev sal data C x hx] at hget
    simp at hget

theorem chunkLoop_ok_all_valid (dev : DeviceOracle) (sal : SegmentAndLocation)
    (data : List Nat) (C : Nat) :
    ∀ pos, (chunkLoop dev sal data C pos).2 = .ok () →
      ∀ c ∈ (chunkLoop dev sal data C pos).1,
        firmware_write_chunk dev sal c.offset c.data = .ok () := by
  intro pos
  induction pos using chunkLoop.induct dev sal data C with
  | case1 x hx cl hcl =>
    intro hok
    have hcl2 : (min C (data.length - x)) % 65536 = 0 := hcl
    rw [chunkLoop_zero dev sal data C x hx hcl2] at hok
    exact Except.noConfusion hok
  | case2 x hx cl hcl ch e hw =>
    intro hok
    have hcl2 : ¬ (min C (data.length - x)) % 65536 = 0 := hcl
    have hw2 : firmware_write_chunk dev sal x
        ((data.drop x).take ((min C (data.length - x)) % 65536)) = .error e := hw
    rw [chunkLoop_error dev sal data C x e hx hcl2 hw2] at hok
    exact Except.noConfusion hok
  | case3 x hx cl hcl ch u hw ih =>
    intro hok c hmem
    have hcl2 : ¬ (min C (data.length - x)) % 65536 = 0 := hcl
    have hw2 : firmware_write_chunk dev sal x
        ((data.drop x).take ((min C (data.length - x)) % 65536)) = .ok () := by
      cases u
      exact hw
    rw [chunkLoop_ok_step dev sal data C x hx hcl2 hw2] at hok hmem
    rcases List.mem_cons.mp hmem with hc | hc
    · subst hc
      exact hw2
    · exact ih hok c hc
  | case4 x hx =>
    intro hok c hmem
    rw [chunkLoop_stop dev sal data C x hx] at hmem
    simp at hmem


/-- C1: for an image of length `L > 0` and a negotiated (16-bit) max chunk
length `C > 0`, when every chunk-write response echoes correctly, the chunk
loop of `fw_update` emits exactly `ceil(L/C)` chunk-write requests whose
(offset, length) pairs form a contiguous, non-overlapping, monotonically
increasing partition of `[0, L)` starting at offset 0 and ending exactly at
`L`; each chunk has length `min(C, L - offset)`, none is empty, none exceeds
`C`, and the loop completes successfully. -/
theorem C1_fw_update_chunking (dev : DeviceOracle) (sal : SegmentAndLocation)
    (data : List Nat) (C : Nat)
    (honest : ∀ s o d, dev.chunkResp s o d = ⟨s, o, .Success⟩)
    (hL : 0 < data.length) (hC : 0 < C) (hC16 : C < 65536) :
    (chunkLoop dev sal data C 0).1.length = (data.length + C - 1) / C ∧
    contiguousB 0 ((chunkLoop dev sal data C 0).1.map
      (fun c => (c.offset, c.data.length))) data.length = true ∧
    (∀ c ∈ (chunkLoop dev sal data C 0).1,
      c.data.length = min C (data.length - c.offset) ∧
      0 < c.data.length ∧ c.data.length ≤ C) ∧
    (chunkLoop dev sal data C 0).2 = .ok () := by
  refine ⟨?_, ?_, ?_, ?_⟩
  · have hn := chunkLoop_honest_length dev sal data C honest hC hC16 0 (by omega)
    simpa using hn
  · exact chunkLoop_honest_contig dev sal data C honest hC hC16 0 (by omega)
  · intro c hmem
    obtain ⟨i, hget⟩ := List.mem_iff_getElem?.mp hmem
    obtain ⟨hoff, hlt, hdata⟩ :=
      chunkLoop_honest_get dev sal data C honest hC hC16 0 i c hget
    have hlen : c.data.length = min C (data.length - c.offset) := by
      rw [hdata]
      simp only [List.length_take, List.length_drop]
      omega
    exact ⟨hlen, by rw [hlen]; omega, by rw [hlen]; omega⟩
  · exact chunkLoop_honest_ok dev sal data C honest hC hC16 0

/-- Witness for C1 at a 3-byte image with chunk length 2. -/
theorem C1_witness :
    (chunkLoop (honestDev 2) SegmentAndLocation.RoA [10, 11, 12] 2 0).1.length =
      (([10, 11, 12] : List Nat).length + 2 - 1) / 2 ∧
    contiguousB 0 ((chunkLoop (honestDev 2) SegmentAndLocation.RoA [10, 11, 12] 2 0).1.map
      (fun c => (c.offset, c.data.length))) ([10, 11, 12] : List Nat).length = true ∧
    (∀ c ∈ (chunkLoop (honestDev 2) SegmentAndLocation.RoA [10, 11, 12] 2 0).1,
      c.data.length = min 2 (([10, 11, 12] : List Nat).length - c.offset) ∧
      0 < c.data.length ∧ c.data.length ≤ 2) ∧
    (chunkLoop (honestDev 2) SegmentAndLocation.RoA [10, 11, 12] 2 0).2 = .ok () :=
  C1_fw_update_chunking (honestDev 2) SegmentAndLocation.RoA [10, 11, 12] 2
    (fun _ _ _ => rfl) (by decide) (by decide) (by decide)

/-- C3: an image longer than the discovered slot's reported capacity makes
the update workflow fail immediately with the oversize error; the trace
contains only the file read — no chunk-write (and no prepare) request is
ever issued. -/
theorem C3_capacity_guard (dev : DeviceOracle) (files : FileSystem)
    (segment : SegmentInfo) (file_name : String) (data : List Nat)
    (hfile : files file_name = some data)
    (hbig : data.length > segment.size) :
    fw_update dev files segment file_name =
      ([.fileRead file_name data.length],
       .error (.fileTooLarge segment.identifier data.length segment.size)) ∧
    ∀ ev ∈ (fw_update dev files segment file_name).1,
      Event.isChunkSent ev = false := by
  have h1 : fw_update dev files segment file_name =
      ([.fileRead file_name data.length],
       .error (.fileTooLarge segment.identifier data.length segment.size)) := by
    simp [fw_update, hfile, hbig]
  refine ⟨h1, ?_⟩
  rw [h1]
  intro ev hev
  simp at hev
  subst hev
  rfl

/-- Witness for C3: a 3-byte image against a zero-capacity slot. -/
theorem C3_witness :
    (testFiles "a" = some [10, 11, 12] ∧
      ([10, 11, 12] : List Nat).length > (⟨.RoA, 0⟩ : SegmentInfo).size) ∧
    fw_update (honestDev 2) testFiles ⟨.RoA, 0⟩ "a" =
      ([.fileRead "a" ([10, 11, 12] : List Nat).length],
       .error (.fileTooLarge (⟨SegmentAndLocation.RoA, 0⟩ : SegmentInfo).identifier
         ([10, 11, 12] : List Nat).length (⟨SegmentAndLocation.RoA, 0⟩ : SegmentInfo).size)) :=
  ⟨⟨by decide, by decide⟩,
    (C3_capacity_guard (honestDev 2) testFiles ⟨.RoA, 0⟩ "a" [10, 11, 12]
      (by decide) (by decide)).1⟩

/-- C8: `read_mailbox` always returns the entire fixed 2048-byte
zero-initialized buffer for decoding, regardless of how many bytes the
transport's read delivered; a short read is not an error and manifests only
as trailing zero bytes. -/
theorem C8_read_mailbox_window (device_bytes : List Nat) :
    (read_mailbox device_bytes).length = SPI_MAX_READ ∧
    (device_bytes.length ≤ SPI_MAX_READ →
      read_mailbox device_bytes =
        device_bytes ++ List.replicate (SPI_MAX_READ - device_bytes.length) 0) := by
  constructor
  · rw [read_mailbox]
    simp [List.length_take, List.length_replicate]
    omega
  · intro hle
    rw [read_mailbox, List.take_of_length_le hle, min_eq_left hle]

/-- Witness for C8 at a 2-byte transport read. -/
theorem C8_witness :
    ([1, 2] : List Nat).length ≤ SPI_MAX_READ ∧
    read_mailbox [1, 2] =
      [1, 2] ++ List.replicate (SPI_MAX_READ - ([1, 2] : List Nat).length) 0 :=
  ⟨by decide, (C8_read_mailbox_window [1, 2]).2 (by decide)⟩

/-- C9: for every image shorter than 860 bytes, `build_info` aborts on the
out-of-range slice at the fixed offset before invoking the build-info codec
(for every possible codec), so it never attempts to decode build metadata
from such a file. -/
theorem C9_build_info_short_file {α : Type} (codec : List Nat → Option α)
    (buf : List Nat) (hshort : buf.length < FIRMWARE_INFO_OFFSET) :
    build_info codec buf = .error .sliceOutOfRange := by
  rw [build_info, if_neg (by omega)]

/-- Witness for C9 at a 3-byte file. -/
theorem C9_witness :
    ([1, 2, 3] : List Nat).length < FIRMWARE_INFO_OFFSET ∧
    build_info (fun _ => some (0 : Nat)) [1, 2, 3] = .error .sliceOutOfRange :=
  ⟨by decide, C9_build_info_short_file (fun _ => some (0 : Nat)) [1, 2, 3] (by decide)⟩

/-- C10: for a zero-length image and a device whose prepare response echoes
validly, `fw_update` still issues the update-prepare exchange, then sends
zero chunk-write requests and completes without error — the chunk loop body,
including its zero-length-chunk failure branch, is never entered. -/
theorem C10_empty_image (dev : DeviceOracle) (files : FileSystem)
    (segment : SegmentInfo) (file_name : String)
    (hfile : files file_name = some [])
    (hsal : (dev.prepareResp segment.identifier).segment_and_location =
      segment.identifier)
    (hres : (dev.prepareResp segment.identifier).result = .Success) :
    fw_update dev files segment file_name =
      ([.fileRead file_name 0, .prepareSent segment.identifier], .ok ()) ∧
    ∀ ev ∈ (fw_update dev files segment file_name).1,
      Event.isChunkSent ev = false := by
  have hprep : firmware_update_prepare dev segment.identifier =
      .ok (dev.prepareResp segment.identifier).max_chunk_length := by
    rw [firmware_update_prepare]
    simp [hsal, hres]
  have h1 : fw_update dev files segment file_name =
      ([.fileRead file_name 0, .prepareSent segment.identifier], .ok ()) := by
    simp [fw_update, hfile, hprep,
      chunkLoop_stop dev segment.identifier []
        (dev.prepareResp segment.identifier).max_chunk_length 0 (by simp)]
  refine ⟨h1, ?_⟩
  rw [h1]
  intro ev hev
  simp at hev
  rcases hev with hev | hev <;> subst hev <;> rfl

/-- Witness for C10 at an empty file. -/
theorem C10_witness :
    (testFiles "empty" = some [] ∧
      ((honestDev 2).prepareResp (⟨.RwB, 10⟩ : SegmentInfo).identifier).segment_and_location =
        (⟨SegmentAndLocation.RwB, 10⟩ : SegmentInfo).identifier) ∧
    fw_update (honestDev 2) testFiles ⟨.RwB, 10⟩ "empty" =
      ([.fileRead "empty" 0, .prepareSent (⟨SegmentAndLocation.RwB, 10⟩ : SegmentInfo).identifier],
       .ok ()) :=
  ⟨⟨by decide, by decide⟩,
    (C10_empty_image (honestDev 2) testFiles ⟨.RwB, 10⟩ "empty"
      (by decide) (by decide) (by decide)).1⟩


/-- C2: if a decoded update-prepare response's echoed segment identifier or
result differs from the request (or is not Success), the workflow aborts
before any chunk-write request is sent; and in the chunk loop, every
exchange followed by another one passed validation, a failing exchange is
the last request and its error becomes the loop outcome, and a successful
run validated every exchange. -/
theorem C2_echo_validation (dev : DeviceOracle) (files : FileSystem)
    (segment : SegmentInfo) (file_name : String) (sal : SegmentAndLocation)
    (data : List Nat) (C pos : Nat) :
    (((dev.prepareResp segment.identifier).segment_and_location ≠ segment.identifier ∨
        (dev.prepareResp segment.identifier).result ≠ UpdatePrepareResult.Success) →
      (∀ ev ∈ (fw_update dev files segment file_name).1,
        Event.isChunkSent ev = false) ∧
      (fw_update dev files segment file_name).2 ≠ .ok ()) ∧
    (∀ (i : Nat) (c : ChunkReq),
      ((chunkLoop dev sal data C pos).1)[i]? = some c →
      i + 1 < (chunkLoop dev sal data C pos).1.length →
      firmware_write_chunk dev sal c.offset c.data = .ok ()) ∧
    (∀ (i : Nat) (c : ChunkReq) (e : UpdateError),
      ((chunkLoop dev sal data C pos).1)[i]? = some c →
      firmware_write_chunk dev sal c.offset c.data = .error e →
      (chunkLoop dev sal data C pos).2 = .error e) ∧
    ((chunkLoop dev sal data C pos).2 = .ok () →
      ∀ c ∈ (chunkLoop dev sal data C pos).1,
        firmware_write_chunk dev sal c.offset c.data = .ok ()) := by
  refine ⟨?_, chunkLoop_nonlast_valid dev sal data C pos,
    chunkLoop_error_of_elem dev sal data C pos,
    chunkLoop_ok_all_valid dev sal data C pos⟩
  intro hmis
  have hprep : ∃ e, firmware_update_prepare dev segment.identifier =
      Except.error e := by
    rw [firmware_update_prepare]
    rcases hmis with h | h
    · exact ⟨UpdateError.prepareSalMismatch
        (dev.prepareResp segment.identifier).segment_and_location, by simp [h]⟩
    · by_cases h1 : (dev.prepareResp segment.identifier).segment_and_location =
          segment.identifier
      · exact ⟨UpdateError.prepareResultInvalid
          (dev.prepareResp segment.identifier).result, by simp [h1, h]⟩
      · exact ⟨UpdateError.prepareSalMismatch
          (dev.prepareResp segment.identifier).segment_and_location, by simp [h1]⟩
  obtain ⟨e, he⟩ := hprep
  cases hf : files file_name with
  | none =>
    simp [fw_update, hf]
  | some file_buf =>
    by_cases hbig : file_buf.length > segment.size
    · have h1 : fw_update dev files segment file_name =
          ([.fileRead file_name file_buf.length],
           .error (.fileTooLarge segment.identifier file_buf.length segment.size)) := by
        simp [fw_update, hf, hbig]
      rw [h1]
      refine ⟨?_, by simp⟩
      intro ev hev
      simp at hev
      subst hev
      rfl
    · have h1 : fw_update dev files segment file_name =
          ([.fileRead file_name file_buf.length, .prepareSent segment.identifier],
           .error e) := by
        simp [fw_update, hf, hbig, he]
      rw [h1]
      refine ⟨?_, by simp⟩
      intro ev hev
      simp at hev
      rcases hev with hev | hev <;> subst hev <;> rfl

/-- Witness for C2: a device whose prepare response echoes a wrong segment
identifier. -/
theorem C2_witness :
    ((badPrepareDev.prepareResp
        (⟨SegmentAndLocation.RoA, 4⟩ : SegmentInfo).identifier).segment_and_location ≠
        (⟨SegmentAndLocation.RoA, 4⟩ : SegmentInfo).identifier ∨
      (badPrepareDev.prepareResp
        (⟨SegmentAndLocation.RoA, 4⟩ : SegmentInfo).identifier).result ≠
        UpdatePrepareResult.Success) ∧
    ((∀ ev ∈ (fw_update badPrepareDev testFiles ⟨SegmentAndLocation.RoA, 4⟩ "b").1,
        Event.isChunkSent ev = false) ∧
      (fw_update badPrepareDev testFiles ⟨SegmentAndLocation.RoA, 4⟩ "b").2 ≠ .ok ()) :=
  ⟨by decide,
    (C2_echo_validation badPrepareDev testFiles ⟨SegmentAndLocation.RoA, 4⟩ "b"
      SegmentAndLocation.RoA [] 0 0).1 (by decide)⟩

/-- Counterexample for C5: in a concrete successful run, the file-read
happens at trace index 0 and the update-prepare request is sent at
trace index 1, so the prepare exchange does not precede the file read. -/
theorem C5_counterexample :
    (fw_update (honestDev 2) testFiles ⟨SegmentAndLocation.RoA, 100⟩ "b").1 =
      [.fileRead "b" 1, .prepareSent .RoA, .chunkSent .RoA 0 1] ∧
    ([Event.fileRead "b" 1, .prepareSent .RoA, .chunkSent .RoA 0 1].findIdx?
      Event.isFileRead = some 0) ∧
    ([Event.fileRead "b" 1, .prepareSent .RoA, .chunkSent .RoA 0 1].findIdx?
      Event.isPrepareSent = some 1) := by
  refine ⟨?_, by decide, by decide⟩
  simp [fw_update, testFiles, firmware_update_prepare, honestDev, chunkLoop,
    firmware_write_chunk]

/-- C5 (amended): whenever the update-prepare request is sent at all,
the trace begins with the file read, so the image is read fully into
memory before the prepare exchange. -/
theorem C5_read_before_prepare (dev : DeviceOracle) (files : FileSystem)
    (segment : SegmentInfo) (file_name : String)
    (hprep : ∃ s, Event.prepareSent s ∈ (fw_update dev files segment file_name).1) :
    ∃ n, ((fw_update dev files segment file_name).1).head? =
      some (.fileRead file_name n) := by
  obtain ⟨s, hmem⟩ := hprep
  cases hf : files file_name with
  | none =>
    rw [fw_update] at hmem
    simp [hf] at hmem
  | some file_buf =>
    refine ⟨file_buf.length, ?_⟩
    by_cases hbig : file_buf.length > segment.size
    · simp [fw_update, hf, hbig]
    · cases hp : firmware_update_prepare dev segment.identifier with
      | error e => simp [fw_update, hf, hbig, hp]
      | ok m => simp [fw_update, hf, hbig, hp]

/-- Witness for the amended C5. -/
theorem C5_witness :
    (∃ s, Event.prepareSent s ∈
      (fw_update (honestDev 2) testFiles ⟨SegmentAndLocation.RoA, 100⟩ "b").1) ∧
    ∃ n, ((fw_update (honestDev 2) testFiles ⟨SegmentAndLocation.RoA, 100⟩ "b").1).head? =
      some (.fileRead "b" n) := by
  have h : ∃ s, Event.prepareSent s ∈
      (fw_update (honestDev 2) testFiles ⟨SegmentAndLocation.RoA, 100⟩ "b").1 := by
    refine ⟨SegmentAndLocation.RoA, ?_⟩
    simp [fw_update, testFiles, firmware_update_prepare, honestDev, chunkLoop,
      firmware_write_chunk]
  exact ⟨h, C5_read_before_prepare (honestDev 2) testFiles ⟨SegmentAndLocation.RoA, 100⟩ "b" h⟩


theorem fromByte_toByte (ct : ContentType) :
    ContentType.fromByte ct.toByte = some ct := by
  cases ct <;> rfl

theorem headerFromWire_headerToWire (h : PayloadHeader) (rest : List Nat) :
    headerFromWire (headerToWire h ++ rest) =
      some (⟨h.content, h.content_len % 65536, h.checksum % 65536⟩, rest) := by
  simp only [headerToWire, List.cons_append, List.nil_append, headerFromWire,
    fromByte_toByte, Option.some.injEq, Prod.mk.injEq, PayloadHeader.mk.injEq]
  exact ⟨⟨trivial, by omega, by omega⟩, trivial⟩

theorem compute_checksum_irrel (ct : ContentType) (L ck : Nat) (p : List Nat) :
    compute_checksum ⟨ct, L, ck⟩ p = compute_checksum ⟨ct, L, 0⟩ p := rfl

theorem decode_encode_envelope (ct : ContentType) (payload : List Nat)
    (hct : ct ≠ .Error) (hlen : payload.length < 65536) :
    decode_envelope (encode_envelope ct payload) = .ok (ct, payload) := by
  rw [encode_envelope, decode_envelope]
  simp only [headerFromWire_headerToWire]
  have hlen2 : payload.length % 65536 = payload.length := Nat.mod_eq_of_lt hlen
  simp only [hlen2, compute_checksum_irrel]
  have hck : compute_checksum ⟨ct, payload.length, 0⟩ payload % 65536 =
      compute_checksum ⟨ct, payload.length, 0⟩ payload := by
    rw [compute_checksum]
    omega
  simp only [hck]
  simp [hct]

theorem serialize_firmware_encode (t : Nat) (m out : List Nat)
    (hser : WireFirmware.serialize t m = some out) :
    out = encode_envelope .Firmware (t % 256 :: m) ∧
    (t % 256 :: m).length < 65536 := by
  by_cases hfit : (t % 256 :: m).length ≤ SPI_MAX_WRITE - HEADER_LEN
  · simp only [WireFirmware.serialize, if_pos hfit, Option.some.injEq] at hser
    refine ⟨hser.symm, ?_⟩
    have : SPI_MAX_WRITE - HEADER_LEN = 507 := by decide
    omega
  · simp only [WireFirmware.serialize, if_neg hfit] at hser
    exact Option.noConfusion hser

theorem serialize_manticore_encode (t : Nat) (m out : List Nat)
    (hser : WireManticore.serialize t m = some out) :
    out = encode_envelope .Manticore (1 :: t % 256 :: m) ∧
    (1 :: t % 256 :: m).length < 65536 := by
  by_cases hfit : (1 :: t % 256 :: m).length ≤ SPI_MAX_WRITE - HEADER_LEN
  · simp only [WireManticore.serialize, if_pos hfit, Option.some.injEq] at hser
    refine ⟨hser.symm, ?_⟩
    have : SPI_MAX_WRITE - HEADER_LEN = 507 := by decide
    omega
  · simp only [WireManticore.serialize, if_neg hfit] at hser
    exact Option.noConfusion hser

/-- C7: for every valid request message of either protocol family,
decoding the envelope of the bytes produced by the corresponding serialize
function succeeds and yields the original content type and the original
sub-header-plus-payload bytes unchanged (and likewise for
`decode_envelope` of `encode_envelope` directly). -/
theorem C7_roundtrip :
    (∀ (ct : ContentType) (payload : List Nat), ct ≠ .Error →
      payload.length < 65536 →
      decode_envelope (encode_envelope ct payload) = .ok (ct, payload)) ∧
    (∀ (t : Nat) (m out : List Nat), WireFirmware.serialize t m = some out →
      decode_envelope out = .ok (.Firmware, t % 256 :: m)) ∧
    (∀ (t : Nat) (m out : List Nat), WireManticore.serialize t m = some out →
      decode_envelope out = .ok (.Manticore, 1 :: t % 256 :: m)) := by
  refine ⟨decode_encode_envelope, ?_, ?_⟩
  · intro t m out hser
    obtain ⟨hout, hlen⟩ := serialize_firmware_encode t m out hser
    rw [hout]
    exact decode_encode_envelope _ _ (by simp) hlen
  · intro t m out hser
    obtain ⟨hout, hlen⟩ := serialize_manticore_encode t m out hser
    rw [hout]
    exact decode_encode_envelope _ _ (by simp) hlen

/-- Witness for C7: a one-byte firmware-family payload. -/
theorem C7_witness :
    (ContentType.Firmware ≠ ContentType.Error ∧ ([9] : List Nat).length < 65536) ∧
    decode_envelope (encode_envelope ContentType.Firmware [9]) =
      .ok (ContentType.Firmware, [9]) :=
  ⟨⟨by decide, by decide⟩, C7_roundtrip.1 ContentType.Firmware [9] (by decide) (by decide)⟩

/-- C4: whenever the checksum recomputed over the envelope header and the
remaining `content_len` bytes differs from the header's checksum field, both
family deserializers and `decode_envelope` fail with the checksum-mismatch
error carrying the recomputed and received values — a mismatch is never
silently tolerated. -/
theorem C4_checksum_mismatch (input : List Nat) (h : PayloadHeader)
    (rest : List Nat) (t : Nat)
    (hparse : headerFromWire input = some (h, rest))
    (hck : h.checksum ≠ compute_checksum h rest) :
    WireFirmware.deserialize t input =
      .error (.checksumMismatch (compute_checksum h rest) h.checksum) ∧
    WireManticore.deserialize t input =
      .error (.checksumMismatch (compute_checksum h rest) h.checksum) ∧
    decode_envelope input =
      .error (.checksumMismatch (compute_checksum h rest) h.checksum) := by
  refine ⟨?_, ?_, ?_⟩
  · simp only [WireFirmware.deserialize, hparse]
    simp [hck]
  · simp only [WireManticore.deserialize, hparse]
    simp [hck]
  · simp only [decode_envelope, hparse]
    simp [hck]

/-- Witness for C4: a firmware frame whose stored checksum is zero but whose
recomputed checksum is 102. -/
theorem C4_witness :
    (headerFromWire [2, 1, 0, 0, 0, 99] =
        some (⟨ContentType.Firmware, 1, 0⟩, [99]) ∧
      (⟨ContentType.Firmware, 1, 0⟩ : PayloadHeader).checksum ≠
        compute_checksum ⟨ContentType.Firmware, 1, 0⟩ [99]) ∧
    WireFirmware.deserialize 3 [2, 1, 0, 0, 0, 99] =
      .error (.checksumMismatch
        (compute_checksum ⟨ContentType.Firmware, 1, 0⟩ [99])
        (⟨ContentType.Firmware, 1, 0⟩ : PayloadHeader).checksum) :=
  ⟨⟨by decide, by decide⟩,
    (C4_checksum_mismatch [2, 1, 0, 0, 0, 99] ⟨ContentType.Firmware, 1, 0⟩ [99] 3
      (by decide) (by decide)).1⟩


/-- Scenario core for the A/B selection claim: with the inactive RO slot
reported as `RoB` (capacity 65536), an honestly echoing device negotiating
512-byte chunks, and a 50000-byte B-path image, `ro_update` reads the
B-path file, emits exactly 98 chunk-write events, the last at offset 49664
with length 336, and succeeds. -/
theorem C6_scenario_core (dev : DeviceOracle) (files : FileSystem)
    (a_file b_file : String) (image : List Nat)
    (hro : dev.inactive_ro = ⟨.RoB, 65536⟩)
    (hprep : ∀ s, dev.prepareResp s = ⟨s, .Success, 512⟩)
    (hchunk : ∀ s o d, dev.chunkResp s o d = ⟨s, o, .Success⟩)
    (hfile : files b_file = some image)
    (hlen : image.length = 50000) :
    Event.fileRead b_file 50000 ∈ (ro_update dev files a_file b_file).1 ∧
    ((ro_update dev files a_file b_file).1.filter Event.isChunkSent).length = 98 ∧
    ((ro_update dev files a_file b_file).1.filter Event.isChunkSent)[97]? =
      some (.chunkSent .RoB 49664 336) ∧
    (ro_update dev files a_file b_file).2 = .ok () := by
  have hid : dev.inactive_ro.identifier = .RoB := by rw [hro]
  have hsize : dev.inactive_ro.size = 65536 := by rw [hro]
  have hsel : ro_update dev files a_file b_file =
      (.inactiveQuerySent :: (fw_update dev files dev.inactive_ro b_file).1,
       (fw_update dev files dev.inactive_ro b_file).2) := by
    rw [ro_update]
    simp only [firmware_get_inactive_ro, hid]
  have hpok : firmware_update_prepare dev dev.inactive_ro.identifier = .ok 512 := by
    rw [firmware_update_prepare, hprep]
    simp
  have hfw : fw_update dev files dev.inactive_ro b_file =
      (.fileRead b_file 50000 :: .prepareSent dev.inactive_ro.identifier ::
        (chunkLoop dev dev.inactive_ro.identifier image 512 0).1.map
          (fun c => .chunkSent dev.inactive_ro.identifier c.offset c.data.length),
       (chunkLoop dev dev.inactive_ro.identifier image 512 0).2) := by
    simp only [fw_update, hfile, hpok, hlen]
    rw [if_neg (by rw [hsize]; omega)]
  have hcount : (chunkLoop dev dev.inactive_ro.identifier image 512 0).1.length = 98 := by
    have hn := chunkLoop_honest_length dev dev.inactive_ro.identifier
      image 512 hchunk (by omega) (by omega) 0 (by omega)
    rw [hlen] at hn
    have h98 : (50000 - 0 + 512 - 1) / 512 = 98 := by norm_num
    rw [h98] at hn
    exact hn
  have hget97 : ∃ c, ((chunkLoop dev dev.inactive_ro.identifier
      image 512 0).1)[97]? = some c :=
    ⟨_, List.getElem?_eq_getElem (by omega)⟩
  obtain ⟨c, hc⟩ := hget97
  obtain ⟨hoff, hlt, hdata⟩ := chunkLoop_honest_get dev dev.inactive_ro.identifier
    image 512 hchunk (by omega) (by omega) 0 97 c hc
  have hoff2 : c.offset = 49664 := by rw [hoff]
  have hdlen : c.data.length = 336 := by
    rw [hdata]
    simp only [List.length_take, List.length_drop, hlen]
    rw [hoff2]
    omega
  have hok := chunkLoop_honest_ok dev dev.inactive_ro.identifier
    image 512 hchunk (by omega) (by omega) 0
  have hfilter : ∀ l : List ChunkReq,
      (l.map (fun c => Event.chunkSent dev.inactive_ro.identifier
        c.offset c.data.length)).filter Event.isChunkSent =
      l.map (fun c => Event.chunkSent dev.inactive_ro.identifier
        c.offset c.data.length) := by
    intro l
    rw [List.filter_eq_self]
    intro x hx
    obtain ⟨r, hr, hxeq⟩ := List.mem_map.mp hx
    rw [← hxeq]
    rfl
  have hevs : (ro_update dev files a_file b_file).1 =
      Event.inactiveQuerySent :: Event.fileRead b_file 50000 ::
        Event.prepareSent dev.inactive_ro.identifier ::
        (chunkLoop dev dev.inactive_ro.identifier image 512 0).1.map
          (fun c => Event.chunkSent dev.inactive_ro.identifier
            c.offset c.data.length) :=
    (congrArg Prod.fst hsel).trans
      (congrArg (fun l => Event.inactiveQuerySent :: l) (congrArg Prod.fst hfw))
  have hfilt : ((ro_update dev files a_file b_file).1.filter Event.isChunkSent) =
      (chunkLoop dev dev.inactive_ro.identifier image 512 0).1.map
        (fun c => Event.chunkSent dev.inactive_ro.identifier
          c.offset c.data.length) := by
    refine (congrArg (List.filter Event.isChunkSent) hevs).trans ?_
    simp only [List.filter_cons]
    have e1 : Event.isChunkSent .inactiveQuerySent = false := rfl
    have e2 : Event.isChunkSent (.fileRead b_file 50000) = false := rfl
    have e3 : Event.isChunkSent (.prepareSent dev.inactive_ro.identifier) = false := rfl
    rw [e1, e2, e3]
    simp only [Bool.false_eq_true, if_false]
    exact hfilter _
  refine ⟨?_, ?_, ?_, ?_⟩
  · rw [hevs]
    exact List.mem_cons_of_mem _ (List.mem_cons_self _ _)
  · have hlen2 : (((chunkLoop dev dev.inactive_ro.identifier image 512 0).1).map
        (fun c => Event.chunkSent dev.inactive_ro.identifier
          c.offset c.data.length)).length = 98 := by
      simp only [List.length_map]
      exact hcount
    exact (congrArg List.length hfilt).trans hlen2
  · have h4 : (((chunkLoop dev dev.inactive_ro.identifier image 512 0).1).map
        (fun c => Event.chunkSent dev.inactive_ro.identifier
          c.offset c.data.length))[97]? =
        some (Event.chunkSent dev.inactive_ro.identifier 49664 336) := by
      rw [List.getElem?_map, hc]
      simp only [Option.map_some', hoff2, hdlen]
    exact (congrArg (fun l => l[97]?) hfilt).trans (h4.trans (by rw [hid]))
  · exact (congrArg Prod.snd hsel).trans ((congrArg Prod.snd hfw).trans hok)

/-- C6: the RO (resp. RW) update selects the A-path file when discovery
reports `RoA` (resp. `RwA`) and the B-path file for `RoB` (resp. `RwB`);
any other discovered identifier is a fatal unexpected-segment error. In the
scenario where discovery reports `RoB` with capacity 65536, the B-path file
is 50000 bytes and the negotiated chunk size is 512, the workflow reads the
B-path file and issues exactly 98 chunk writes, the last (index 97) at
offset 49664 with length 336, completing successfully. -/
theorem C6_slot_selection (dev : DeviceOracle) (files : FileSystem)
    (a_file b_file : String) (image : List Nat) :
    (dev.inactive_ro.identifier = .RoA →
      ro_update dev files a_file b_file =
        (.inactiveQuerySent :: (fw_update dev files dev.inactive_ro a_file).1,
         (fw_update dev files dev.inactive_ro a_file).2)) ∧
    (dev.inactive_ro.identifier = .RoB →
      ro_update dev files a_file b_file =
        (.inactiveQuerySent :: (fw_update dev files dev.inactive_ro b_file).1,
         (fw_update dev files dev.inactive_ro b_file).2)) ∧
    (dev.inactive_ro.identifier ≠ .RoA → dev.inactive_ro.identifier ≠ .RoB →
      ro_update dev files a_file b_file =
        ([.inactiveQuerySent],
         .error (.unexpectedSegment dev.inactive_ro.identifier))) ∧
    (dev.inactive_rw.identifier = .RwA →
      rw_update dev files a_file b_file =
        (.inactiveQuerySent :: (fw_update dev files dev.inactive_rw a_file).1,
         (fw_update dev files dev.inactive_rw a_file).2)) ∧
    (dev.inactive_rw.identifier = .RwB →
      rw_update dev files a_file b_file =
        (.inactiveQuerySent :: (fw_update dev files dev.inactive_rw b_file).1,
         (fw_update dev files dev.inactive_rw b_file).2)) ∧
    (dev.inactive_rw.identifier ≠ .RwA → dev.inactive_rw.identifier ≠ .RwB →
      rw_update dev files a_file b_file =
        ([.inactiveQuerySent],
         .error (.unexpectedSegment dev.inactive_rw.identifier))) ∧
    (dev.inactive_ro = ⟨.RoB, 65536⟩ →
      (∀ s, dev.prepareResp s = ⟨s, .Success, 512⟩) →
      (∀ s o d, dev.chunkResp s o d = ⟨s, o, .Success⟩) →
      files b_file = some image → image.length = 50000 →
      Event.fileRead b_file 50000 ∈ (ro_update dev files a_file b_file).1 ∧
      ((ro_update dev files a_file b_file).1.filter Event.isChunkSent).length = 98 ∧
      ((ro_update dev files a_file b_file).1.filter Event.isChunkSent)[97]? =
        some (.chunkSent .RoB 49664 336) ∧
      (ro_update dev files a_file b_file).2 = .ok ()) := by
  refine ⟨?_, ?_, ?_, ?_, ?_, ?_,
    fun hro hprep hchunk hfile hlen =>
      C6_scenario_core dev files a_file b_file image hro hprep hchunk hfile hlen⟩
  · intro hid
    rw [ro_update]
    simp only [firmware_get_inactive_ro, hid]
  · intro hid
    rw [ro_update]
    simp only [firmware_get_inactive_ro, hid]
  · intro hna hnb
    rw [ro_update]
    cases hid : dev.inactive_ro.identifier with
    | RoA => exact absurd hid hna
    | RoB => exact absurd hid hnb
    | RwA => simp only [firmware_get_inactive_ro, hid]
    | RwB => simp only [firmware_get_inactive_ro, hid]
    | Invalid code => simp only [firmware_get_inactive_ro, hid]
  · intro hid
    rw [rw_update]
    simp only [firmware_get_inactive_rw, hid]
  · intro hid
    rw [rw_update]
    simp only [firmware_get_inactive_rw, hid]
  · intro hna hnb
    rw [rw_update]
    cases hid : dev.inactive_rw.identifier with
    | RwA => exact absurd hid hna
    | RwB => exact absurd hid hnb
    | RoA => simp only [firmware_get_inactive_rw, hid]
    | RoB => simp only [firmware_get_inactive_rw, hid]
    | Invalid code => simp only [firmware_get_inactive_rw, hid]

/-- Witness for C6: the honest device negotiating 512-byte chunks with a
50000-byte B-path image. -/
theorem C6_witness :
    ((honestDev 512).inactive_ro = ⟨SegmentAndLocation.RoB, 65536⟩ ∧
      scenarioFiles "b" = some (List.replicate 50000 0) ∧
      (List.replicate 50000 (0 : Nat)).length = 50000) ∧
    (Event.fileRead "b" 50000 ∈
        (ro_update (honestDev 512) scenarioFiles "a" "b").1 ∧
      ((ro_update (honestDev 512) scenarioFiles "a" "b").1.filter
        Event.isChunkSent).length = 98 ∧
      ((ro_update (honestDev 512) scenarioFiles "a" "b").1.filter
        Event.isChunkSent)[97]? = some (.chunkSent .RoB 49664 336) ∧
      (ro_update (honestDev 512) scenarioFiles "a" "b").2 = .ok ()) :=
  ⟨⟨rfl, rfl, List.length_replicate 50000 0⟩,
    (C6_slot_selection (honestDev 512) scenarioFiles "a" "b"
      (List.replicate 50000 0)).2.2.2.2.2.2 rfl (fun _ => rfl) (fun _ _ _ => rfl)
      rfl (List.length_replicate 50000 0)⟩

end Otpilot
